import Mathlib

/-!
Verification of the RIFF/AVI container encoder
(src/asset_extraction_framework/Asset/Avi.py).

The Python module is embedded shallowly:

* bytes are natural numbers below 256, produced by explicit `% 256`;
* the seekable output file is a `ByteStream` (buffer plus position), so the
  deferred-size backpatching of `_write_list` and `_write_chunk` is modelled
  exactly as the source performs it (placeholder, content, seek back,
  overwrite, seek forward);
* header objects whose fields may still be `None` use `Option` fields, and
  `encode` returns `none` when the Python encoder would raise on a `None`
  field;
* `add_video_frame` returns the post-call state together with an optional
  error, because the Python method first appends the chunk and only then
  touches `self.video_stream_header.stream_size` (raising `AttributeError`
  when the video stream was never initialized).
-/

set_option maxRecDepth 100000

namespace Avi

/-- ASCII code points of a tag string; every tag in the source is ASCII,
so this equals its byte encoding. -/
def ascii (s : String) : List Nat := s.data.map Char.toNat

/-- `struct.pack.uint16_le`. -/
def uint16_le (v : Nat) : List Nat := [v % 256, v / 256 % 256]

/-- `struct.pack.uint32_le`. -/
def uint32_le (v : Nat) : List Nat :=
  [v % 256, v / 256 % 256, v / 65536 % 256, v / 16777216 % 256]

/-- `struct.pack.int32_le`: twos-complement encoding of a signed value. -/
def int32_le (v : Int) : List Nat := uint32_le (v % 4294967296).toNat

/-- `struct.pack.int16_le`: twos-complement encoding of a signed value. -/
def int16_le (v : Int) : List Nat := uint16_le (v % 65536).toNat

/-- `AviStreamType.Audio = b'auds'`. -/
def AviStreamType.Audio : List Nat := ascii "auds"

/-- `AviStreamType.Video = b'vids'`. -/
def AviStreamType.Video : List Nat := ascii "vids"

/-- `AviStreamTwoCC.UncompressedVideo = b'db'`. -/
def AviStreamTwoCC.UncompressedVideo : List Nat := ascii "db"

/-- `AviStreamTwoCC.Audio = b'wb'`. -/
def AviStreamTwoCC.Audio : List Nat := ascii "wb"

/-- The `AviMainHeader` dataclass.  Fields that default to `None` in the
source are `Option`-valued. -/
structure AviMainHeader where
  micro_seconds_per_frame : Option Nat := none
  max_bytes_per_second : Nat := 0
  padding_in_bytes : Nat := 1
  flags : Nat := 0
  total_frames : Nat := 0
  initial_frames : Nat := 0
  stream_count : Nat := 1
  suggested_buffer_size : Nat := 0
  width : Option Int := none
  height : Option Int := none
  reserved : List Nat := [0, 0, 0, 0]
deriving DecidableEq

/-- `AviMainHeader.encode`: the 56-byte `avih` payload.  Packing a `None`
field raises in Python, so the result is `none` when a required field is
unset. -/
def AviMainHeader.encode (h : AviMainHeader) : Option (List Nat) :=
  match h.micro_seconds_per_frame, h.width, h.height with
  | some micro, some w, some ht =>
    some (uint32_le micro ++ uint32_le h.max_bytes_per_second ++
      uint32_le h.padding_in_bytes ++ uint32_le h.flags ++
      uint32_le h.total_frames ++ uint32_le h.initial_frames ++
      uint32_le h.stream_count ++ uint32_le h.suggested_buffer_size ++
      int32_le w ++ int32_le ht ++
      uint32_le (h.reserved.getD 0 0) ++ uint32_le (h.reserved.getD 1 0) ++
      uint32_le (h.reserved.getD 2 0) ++ uint32_le (h.reserved.getD 3 0))
  | _, _, _ => none

/-- `BitmapInfo.STRUCTURE_SIZE = 0x28`. -/
def BitmapInfo.STRUCTURE_SIZE : Nat := 40

/-- The `BitmapInfo` dataclass. -/
structure BitmapInfo where
  width : Option Int := none
  height : Option Int := none
  planes : Nat := 1
  bits_per_pixel : Option Nat := none
  compression : Nat := 0
  image_length : Nat := 0
  horizontal_resolution : Nat := 0
  vertical_resolution : Nat := 0
  used_colors : Nat := 0
  important_colors : Nat := 0
  palette : Option (List Nat) := none
deriving DecidableEq

/-- `BitmapInfo.encode`: the fixed 40-byte layout, followed by the raw
palette bytes when a palette is present (`if self.palette:` treats an
absent or empty palette alike: nothing is appended). -/
def BitmapInfo.encode (b : BitmapInfo) : Option (List Nat) :=
  match b.width, b.height, b.bits_per_pixel with
  | some w, some ht, some bpp =>
    some (uint32_le BitmapInfo.STRUCTURE_SIZE ++ int32_le w ++ int32_le ht ++
      uint16_le b.planes ++ uint16_le bpp ++ uint32_le b.compression ++
      uint32_le b.image_length ++ uint32_le b.horizontal_resolution ++
      uint32_le b.vertical_resolution ++ uint32_le b.used_colors ++
      uint32_le b.important_colors ++ b.palette.getD [])
  | _, _, _ => none

/-- The `PcmWaveFormatEx` dataclass. -/
structure PcmWaveFormatEx where
  format_tag : Nat := 1
  channel_count : Option Nat := none
  samples_per_second : Option Nat := none
  bits_per_sample : Option Nat := none
  additional_information_size : Nat := 0
deriving DecidableEq

/-- The `block_alignment` property: `channel_count * bits_per_sample`
(the source has no division by 8), derived from the stored fields. -/
def PcmWaveFormatEx.block_alignment (w : PcmWaveFormatEx) : Option Nat :=
  match w.channel_count, w.bits_per_sample with
  | some cc, some bps => some (cc * bps)
  | _, _ => none

/-- The `average_bytes_per_second_transfer_rate` property:
`samples_per_second * block_alignment`, derived at access time. -/
def PcmWaveFormatEx.average_bytes_per_second_transfer_rate
    (w : PcmWaveFormatEx) : Option Nat :=
  match w.samples_per_second, w.block_alignment with
  | some sps, some ba => some (sps * ba)
  | _, _ => none

/-- `PcmWaveFormatEx.encode`: seven little-endian fields
(u16 u16 u32 u32 u16 u16 u16). -/
def PcmWaveFormatEx.encode (w : PcmWaveFormatEx) : Option (List Nat) :=
  match w.channel_count, w.samples_per_second, w.bits_per_sample,
      w.average_bytes_per_second_transfer_rate, w.block_alignment with
  | some cc, some sps, some bps, some avg, some ba =>
    some (uint16_le w.format_tag ++ uint16_le cc ++ uint32_le sps ++
      uint32_le avg ++ uint16_le ba ++ uint16_le bps ++
      uint16_le w.additional_information_size)
  | _, _, _, _, _ => none

/-- The `AviStreamHeader` dataclass.  `stream_type` and `rate` default to
`None` in the source; the `FOURCC` and `STRUCTURE_SIZE` class fields are
never serialized and are omitted. -/
structure AviStreamHeader where
  stream_type : Option (List Nat) := none
  stream_data_handler : List Nat := ascii "DIB "
  flags : Nat := 0
  priority : Nat := 0
  language : Nat := 0
  frames_before_this_stream : Nat := 0
  scale : Nat := 1
  rate : Option Nat := none
  start_time : Nat := 0
  stream_size : Nat := 0
  suggested_buffer_size : Nat := 0
  quality : Int := -1
  sample_size : Nat := 0
  stream_rectangle : Int × Int × Int × Int := (0, 0, 0, 0)
deriving DecidableEq

/-- `AviStreamHeader.encode`: the 56-byte `strh` payload.  Writing a `None`
stream type or packing a `None` rate raises in Python, hence `none`. -/
def AviStreamHeader.encode (h : AviStreamHeader) : Option (List Nat) :=
  match h.stream_type, h.rate with
  | some st, some r =>
    some (st ++ h.stream_data_handler ++ uint32_le h.flags ++
      uint16_le h.priority ++ uint16_le h.language ++
      uint32_le h.frames_before_this_stream ++ uint32_le h.scale ++
      uint32_le r ++ uint32_le h.start_time ++ uint32_le h.stream_size ++
      uint32_le h.suggested_buffer_size ++ int32_le h.quality ++
      uint32_le h.sample_size ++
      int16_le h.stream_rectangle.1 ++ int16_le h.stream_rectangle.2.1 ++
      int16_le h.stream_rectangle.2.2.1 ++ int16_le h.stream_rectangle.2.2.2)
  | _, _ => none

/-- The `AviFile` object state.  `bitmap_header` is only assigned inside
`initialize_video_stream`; `none` models the attribute not existing yet. -/
structure AviFile where
  main_header : AviMainHeader := {}
  audio_stream_header : Option AviStreamHeader := none
  wave_header : Option PcmWaveFormatEx := none
  audio_chunks : List (List Nat × List Nat) := []
  video_stream_header : Option AviStreamHeader := none
  video_chunks : List (List Nat × List Nat) := []
  bitmap_header : Option BitmapInfo := none
deriving DecidableEq

/-- `AviFile.__init__`. -/
def AviFile.init : AviFile := {}

/-- `AviFile.initialize_audio_stream`. -/
def AviFile.initialize_audio_stream (f : AviFile)
    (channel_count samples_per_second bits_per_sample : Nat) : AviFile :=
  { f with
    audio_stream_header := some
      { stream_type := some AviStreamType.Audio,
        rate := some samples_per_second },
    wave_header := some
      { channel_count := some channel_count,
        samples_per_second := some samples_per_second,
        bits_per_sample := some bits_per_sample } }

/-- `AviFile.add_audio_chunk`: appends `(b'01' + b'wb', sound.pcm)` to
`audio_chunks`.  The method never touches `audio_stream_header` and can
never fail. -/
def AviFile.add_audio_chunk (f : AviFile) (pcm : List Nat) : AviFile :=
  { f with audio_chunks :=
      f.audio_chunks ++ [(ascii "01" ++ AviStreamTwoCC.Audio, pcm)] }

/-- `AviFile.initialize_video_stream`.  The source performs no validation of
`width`/`height`; for `frames_per_second = 0` Python would raise
`ZeroDivisionError`, so the embedding is meaningful for positive rates. -/
def AviFile.initialize_video_stream (f : AviFile) (width height : Int)
    (frames_per_second bits_per_pixel : Nat)
    (palette : Option (List Nat)) : AviFile :=
  { f with
    video_stream_header := some
      { stream_type := some AviStreamType.Video,
        rate := some frames_per_second,
        stream_rectangle := (0, 0, width, -height),
        stream_size := 0 },
    bitmap_header := some
      { width := some width, height := some (-height),
        bits_per_pixel := some bits_per_pixel, palette := palette },
    main_header := { f.main_header with
      micro_seconds_per_frame := some (1000000 / frames_per_second),
      width := some width, height := some (-height) } }

/-- A seekable binary output file: the bytes written so far and the current
position.  `write` overwrites in place and extends the buffer at the end,
exactly as a regular file opened for writing behaves. -/
structure ByteStream where
  data : List Nat := []
  pos : Nat := 0
deriving DecidableEq

/-- `stream.write(bs)`. -/
def ByteStream.write (s : ByteStream) (bs : List Nat) : ByteStream :=
  { data := s.data.take s.pos ++ bs ++ s.data.drop (s.pos + bs.length),
    pos := s.pos + bs.length }

/-- `stream.tell()`. -/
def ByteStream.tell (s : ByteStream) : Nat := s.pos

/-- `stream.seek(p)`. -/
def ByteStream.seek (s : ByteStream) (p : Nat) : ByteStream := { s with pos := p }

/-- The payload of one RIFF tree entry, the second component of the
2-tuples the source composes: `None` (skipped chunk), raw bytes, or a
self-encoding header object.  For a header object, the bytes its `encode`
method emits are carried directly; `none` stands for an encoder that
raises on an unset field. -/
inductive Payload where
  | absent : Payload
  | bytes : List Nat → Payload
  | header : Option (List Nat) → Payload
deriving DecidableEq

mutual
/-- One entry of the nested `riff_structure`: a `(fourcc, payload)` chunk
or a `(fourcc, sublist)` list. -/
inductive RiffEntry where
  | chunk : List Nat → Payload → RiffEntry
  | list : List Nat → RiffEntries → RiffEntry

/-- A sequence of RIFF entries (kept as a dedicated inductive so the
writer below is structurally recursive and computable by the kernel). -/
inductive RiffEntries where
  | nil : RiffEntries
  | cons : RiffEntry → RiffEntries → RiffEntries
end

/-- Converts an ordinary list of entries. -/
def RiffEntries.ofList : List RiffEntry → RiffEntries
  | [] => .nil
  | e :: rest => .cons e (RiffEntries.ofList rest)

/-- `AviFile._write_chunk`: skips a `None` payload entirely; writes
`fourcc, size, data` in one pass for raw bytes; for a header object,
writes a zero placeholder, lets the header encode itself, then seeks back
and patches the measured size.  `none` models a raised exception. -/
def write_chunk (stream : ByteStream) (chunk_name : List Nat)
    (chunk_data : Payload) : Option ByteStream :=
  match chunk_data with
  | .absent => some stream
  | .bytes d => some (((stream.write chunk_name).write (uint32_le d.length)).write d)
  | .header r =>
    let s1 := stream.write chunk_name
    let size_pointer := s1.tell
    let s2 := s1.write [0, 0, 0, 0]
    let content_start_pointer := s2.tell
    match r with
    | none => none
    | some d =>
      let s3 := s2.write d
      let list_size := s3.tell - content_start_pointer
      let current_position := s3.tell
      some (((s3.seek size_pointer).write (uint32_le list_size)).seek current_position)

mutual
/-- One iteration of the loop in `AviFile._write_list`: a nested list
recurses into the list writer (with the default `b'LIST'` fourcc, whose
body is inlined here so the recursion is structural); anything else is
written as a chunk. -/
def write_entry (stream : ByteStream) : RiffEntry → Option ByteStream
  | .chunk chunk_name chunk_data => write_chunk stream chunk_name chunk_data
  | .list list_name list_structure =>
    let s1 := stream.write (ascii "LIST")
    let size_pointer := s1.tell
    let s2 := s1.write [0, 0, 0, 0]
    let content_start_pointer := s2.tell
    let s3 := s2.write list_name
    match write_entries s3 list_structure with
    | none => none
    | some s4 =>
      let list_size := s4.tell - content_start_pointer
      let current_position := s4.tell
      some (((s4.seek size_pointer).write (uint32_le list_size)).seek current_position)

/-- The `for entry in list_structure` loop of `AviFile._write_list`. -/
def write_entries (stream : ByteStream) : RiffEntries → Option ByteStream
  | .nil => some stream
  | .cons e rest =>
    match write_entry stream e with
    | none => none
    | some s => write_entries s rest
end

/-- `AviFile._write_list` with an explicit `list_fourcc` (the source
defaults it to `b'LIST'`; the root call passes `b'RIFF'`): fourcc, size
placeholder, list name, entries, then the backpatched size
`tell() - content_start`. -/
def write_list (stream : ByteStream) (list_name : List Nat)
    (list_structure : RiffEntries) (list_fourcc : List Nat) : Option ByteStream :=
  let s1 := stream.write list_fourcc
  let size_pointer := s1.tell
  let s2 := s1.write [0, 0, 0, 0]
  let content_start_pointer := s2.tell
  let s3 := s2.write list_name
  match write_entries s3 list_structure with
  | none => none
  | some s4 =>
    let list_size := s4.tell - content_start_pointer
    let current_position := s4.tell
    some (((s4.seek size_pointer).write (uint32_le list_size)).seek current_position)

/-- The payload handed to `_write_chunk` for a header attribute: Python
skips the chunk when the attribute is `None`, otherwise the header object
encodes itself. -/
def payloadOf {α : Type} (o : Option α) (enc : α → Option (List Nat)) : Payload :=
  match o with
  | none => .absent
  | some x => .header (enc x)

/-- The data chunks of the `movi` list, in composed order. -/
def chunkEntries : List (List Nat × List Nat) → RiffEntries
  | [] => .nil
  | c :: rest => .cons (.chunk c.1 (.bytes c.2)) (chunkEntries rest)

/-- The `riff_structure` literal built inside `AviFile.write` (the single
outer `(b'AVI ', ...)` tuple with its `hdrl` and `movi` lists). -/
def AviFile.riff_structure (f : AviFile) (bh : BitmapInfo) : RiffEntries :=
  .ofList [ .list (ascii "AVI ") (.ofList
    [ .list (ascii "hdrl") (.ofList
        [ .chunk (ascii "avih") (.header f.main_header.encode),
          .list (ascii "strl") (.ofList
            [ .chunk (ascii "strh") (payloadOf f.video_stream_header AviStreamHeader.encode),
              .chunk (ascii "strf") (.header bh.encode) ]),
          .list (ascii "strl") (.ofList
            [ .chunk (ascii "strh") (payloadOf f.audio_stream_header AviStreamHeader.encode),
              .chunk (ascii "strf") (payloadOf f.wave_header PcmWaveFormatEx.encode) ]) ]),
      .list (ascii "movi") (chunkEntries (f.video_chunks ++ f.audio_chunks)) ]) ]

/-- `AviFile.write`: referencing `self.bitmap_header` raises
`AttributeError` when `initialize_video_stream` was never called (hence
`none`); otherwise the root list is written with fourcc `b'RIFF'` and name
`b'AVI '` onto a fresh file.  The result is the final byte content. -/
def AviFile.write (f : AviFile) : Option (List Nat) :=
  match f.bitmap_header with
  | none => none
  | some bh =>
    (write_list { data := [], pos := 0 } (ascii "AVI ") (f.riff_structure bh)
      (ascii "RIFF")).map ByteStream.data

/-- `AviFile.add_video_frame`: appends `(b'00' + b'db', bitmap)` to
`video_chunks` and then increments `video_stream_header.stream_size`.
Python performs the append first and only then dereferences the stream
header, so when the video stream was never initialized the chunk is
appended and an `AttributeError` is raised.  The result is the post-call
state paired with the error, if any. -/
def AviFile.add_video_frame (f : AviFile) (bitmap : List Nat) :
    AviFile × Option String :=
  let f1 := { f with video_chunks :=
      f.video_chunks ++ [(ascii "00" ++ AviStreamTwoCC.UncompressedVideo, bitmap)] }
  match f1.video_stream_header with
  | none => (f1, some "AttributeError")
  | some h =>
    ({ f1 with video_stream_header := some { h with stream_size := h.stream_size + 1 } },
     none)

/-! ### Denotational description of the writer

The imperative writer above mirrors the backpatching of the source.  The
functions below give the bytes it produces in closed form, with every
recorded size field spelled out explicitly; the equivalence is proved
below and carries the size-correctness content. -/

/-- The bytes `_write_chunk` leaves on the file: nothing for a skipped
payload, otherwise `fourcc ++ size ++ payload` with the size recorded as
exactly the payload length. -/
def chunk_bytes (chunk_name : List Nat) : Payload → Option (List Nat)
  | .absent => some []
  | .bytes d => some (chunk_name ++ uint32_le d.length ++ d)
  | .header none => none
  | .header (some d) => some (chunk_name ++ uint32_le d.length ++ d)

mutual
/-- The bytes one entry contributes: chunk framing, or
`LIST ++ size ++ name ++ children` with the size recorded as the name
length plus the fully framed children bytes. -/
def entry_bytes : RiffEntry → Option (List Nat)
  | .chunk chunk_name chunk_data => chunk_bytes chunk_name chunk_data
  | .list list_name list_structure =>
    match entries_bytes list_structure with
    | none => none
    | some body =>
      some (ascii "LIST" ++ uint32_le (list_name.length + body.length) ++
        list_name ++ body)

/-- The concatenated framed bytes of a sequence of entries, in order. -/
def entries_bytes : RiffEntries → Option (List Nat)
  | .nil => some []
  | .cons e rest =>
    match entry_bytes e, entries_bytes rest with
    | some b, some bs => some (b ++ bs)
    | _, _ => none
end

/-- Number of positions at which `pat` occurs inside `l`. -/
def countOcc (pat l : List Nat) : Nat :=
  ((List.range (l.length + 1)).filter (fun i => pat.isPrefixOf (l.drop i))).length

/-- One public mutating operation of the assembler (`write` performs no
state mutation and is therefore not listed). -/
inductive AviOp where
  | initVideo (width height : Int) (fps bpp : Nat) (palette : Option (List Nat))
  | initAudio (channel_count samples_per_second bits_per_sample : Nat)
  | addVideo (frame : List Nat)
  | addAudio (pcm : List Nat)
deriving DecidableEq

/-- Applies one public operation to the assembler state. -/
def AviFile.apply_op (f : AviFile) : AviOp → AviFile
  | .initVideo w h fps bpp pal => f.initialize_video_stream w h fps bpp pal
  | .initAudio cc sps bps => f.initialize_audio_stream cc sps bps
  | .addVideo frame => (f.add_video_frame frame).1
  | .addAudio pcm => f.add_audio_chunk pcm

/-- The state reached from a fresh `AviFile()` by a sequence of public
operations. -/
def AviFile.run (ops : List AviOp) : AviFile :=
  ops.foldl AviFile.apply_op AviFile.init

/-- A container whose video stream is initialized and whose audio stream
never is (the omission scenario of the specification). -/
def video_only_example : AviFile :=
  AviFile.init.initialize_video_stream 64 48 10 8 none

@[simp] theorem ascii_LIST_length : (ascii "LIST").length = 4 := by decide

@[simp] theorem uint16_le_length (v : Nat) : (uint16_le v).length = 2 := rfl

@[simp] theorem uint32_le_length (v : Nat) : (uint32_le v).length = 4 := rfl

@[simp] theorem int32_le_length (v : Int) : (int32_le v).length = 4 := rfl

@[simp] theorem int16_le_length (v : Int) : (int16_le v).length = 2 := rfl

/-- Writing with the position at the end of the buffer appends. -/
theorem ByteStream.write_at_end (s : ByteStream) (bs : List Nat)
    (h : s.pos = s.data.length) :
    s.write bs = ⟨s.data ++ bs, s.pos + bs.length⟩ := by
  have h1 : s.data.take s.pos = s.data := by rw [h]; exact List.take_length s.data
  have h2 : s.data.drop (s.pos + bs.length) = [] :=
    List.drop_of_length_le (by omega)
  simp [ByteStream.write, h1, h2]

/-- Writing a same-length replacement at an interior position overwrites
it in place (the backpatch step). -/
theorem ByteStream.write_overwrite (pre mid post repl : List Nat)
    (hm : repl.length = mid.length) :
    ByteStream.write ⟨pre ++ (mid ++ post), pre.length⟩ repl =
      ⟨pre ++ (repl ++ post), pre.length + repl.length⟩ := by
  have h1 : (pre ++ (mid ++ post)).take pre.length = pre := List.take_left pre _
  have h2 : (pre ++ (mid ++ post)).drop (pre.length + repl.length) = post := by
    rw [← List.append_assoc]
    exact List.drop_left' (by simp [hm])
  simp [ByteStream.write, h1, h2]

/-- `write_chunk` from an end-positioned stream appends exactly the
denotational chunk bytes; the backpatched size equals the payload
length. -/
theorem write_chunk_den (s : ByteStream) (chunk_name : List Nat) (p : Payload)
    (h : s.pos = s.data.length) :
    write_chunk s chunk_name p =
      (chunk_bytes chunk_name p).map
        (fun b => ⟨s.data ++ b, s.pos + b.length⟩) := by
  have e1 : s.write chunk_name = ⟨s.data ++ chunk_name, s.pos + chunk_name.length⟩ :=
    ByteStream.write_at_end s chunk_name h
  cases p with
  | absent =>
    simp [write_chunk, chunk_bytes]
  | bytes d =>
    have e2 : ByteStream.write ⟨s.data ++ chunk_name, s.pos + chunk_name.length⟩
        (uint32_le d.length) =
        ⟨s.data ++ chunk_name ++ uint32_le d.length, s.pos + chunk_name.length + 4⟩ := by
      rw [ByteStream.write_at_end _ _ (by simp [h])]
      simp
    have e3 : ByteStream.write
        ⟨s.data ++ chunk_name ++ uint32_le d.length, s.pos + chunk_name.length + 4⟩ d =
        ⟨s.data ++ chunk_name ++ uint32_le d.length ++ d,
          s.pos + chunk_name.length + 4 + d.length⟩ := by
      rw [ByteStream.write_at_end _ _ (by simp [h]; omega)]
    simp only [write_chunk, chunk_bytes, Option.map, e1, e2, e3]
    simp [List.append_assoc]
    omega
  | header r =>
    cases r with
    | none => rfl
    | some d =>
      have e2 : ByteStream.write ⟨s.data ++ chunk_name, s.pos + chunk_name.length⟩
          [0, 0, 0, 0] =
          ⟨s.data ++ chunk_name ++ [0, 0, 0, 0], s.pos + chunk_name.length + 4⟩ := by
        rw [ByteStream.write_at_end _ _ (by simp [h])]
        simp
      have e3 : ByteStream.write
          ⟨s.data ++ chunk_name ++ [0, 0, 0, 0], s.pos + chunk_name.length + 4⟩ d =
          ⟨s.data ++ chunk_name ++ [0, 0, 0, 0] ++ d,
            s.pos + chunk_name.length + 4 + d.length⟩ := by
        rw [ByteStream.write_at_end _ _ (by simp [h]; omega)]
      have e4 : ByteStream.write
          ⟨s.data ++ chunk_name ++ [0, 0, 0, 0] ++ d, s.pos + chunk_name.length⟩
          (uint32_le (s.pos + chunk_name.length + 4 + d.length -
            (s.pos + chunk_name.length + 4))) =
          ⟨s.data ++ chunk_name ++ uint32_le d.length ++ d,
            s.pos + chunk_name.length + 4⟩ := by
        have hsz : s.pos + chunk_name.length + 4 + d.length -
            (s.pos + chunk_name.length + 4) = d.length := by omega
        rw [hsz]
        have hdata : s.data ++ chunk_name ++ [0, 0, 0, 0] ++ d =
            (s.data ++ chunk_name) ++ ([0, 0, 0, 0] ++ d) := by
          simp [List.append_assoc]
        have hpos : s.pos + chunk_name.length = (s.data ++ chunk_name).length := by
          simp [h]
        rw [hdata, hpos,
          ByteStream.write_overwrite (s.data ++ chunk_name) [0, 0, 0, 0] d
            (uint32_le d.length) (by simp)]
        simp [List.append_assoc, h]
      simp only [write_chunk, chunk_bytes, Option.map, e1, ByteStream.tell, e2, e3,
        ByteStream.seek, e4]
      simp [List.append_assoc]
      omega

mutual
/-- `write_entry` from an end-positioned stream appends exactly the
denotational entry bytes. -/
theorem write_entry_den (e : RiffEntry) (s : ByteStream)
    (h : s.pos = s.data.length) :
    write_entry s e =
      (entry_bytes e).map (fun b => ⟨s.data ++ b, s.pos + b.length⟩) := by
  cases e with
  | chunk chunk_name chunk_data => exact write_chunk_den s chunk_name chunk_data h
  | list list_name list_structure =>
    have e1 : s.write (ascii "LIST") =
        ⟨s.data ++ ascii "LIST", s.pos + 4⟩ := by
      rw [ByteStream.write_at_end s _ h]
      simp
    have e2 : ByteStream.write ⟨s.data ++ ascii "LIST", s.pos + 4⟩ [0, 0, 0, 0] =
        ⟨s.data ++ ascii "LIST" ++ [0, 0, 0, 0], s.pos + 4 + 4⟩ := by
      rw [ByteStream.write_at_end _ _ (by simp [h])]
      simp
    have e3 : ByteStream.write
        ⟨s.data ++ ascii "LIST" ++ [0, 0, 0, 0], s.pos + 4 + 4⟩ list_name =
        ⟨s.data ++ ascii "LIST" ++ [0, 0, 0, 0] ++ list_name,
          s.pos + 4 + 4 + list_name.length⟩ := by
      rw [ByteStream.write_at_end _ _ (by simp [h]; try omega)]
      try simp
    have hrec := write_entries_den list_structure
      ⟨s.data ++ ascii "LIST" ++ [0, 0, 0, 0] ++ list_name,
        s.pos + 4 + 4 + list_name.length⟩
      (by simp [h]; try omega)
    simp only [write_entry, entry_bytes, Option.map, e1, ByteStream.tell, e2, e3,
      ByteStream.seek, hrec]
    cases hbe : entries_bytes list_structure with
    | none => rfl
    | some body =>
      have e4 : ByteStream.write
          ⟨s.data ++ ascii "LIST" ++ [0, 0, 0, 0] ++ (list_name ++ body), s.pos + 4⟩
          (uint32_le (s.pos + 4 + 4 + list_name.length + body.length -
            (s.pos + 4 + 4))) =
          ⟨s.data ++ ascii "LIST" ++ uint32_le (list_name.length + body.length) ++
              (list_name ++ body),
            s.pos + 4 + 4⟩ := by
        have hsz : s.pos + 4 + 4 + list_name.length + body.length -
            (s.pos + 4 + 4) = list_name.length + body.length := by omega
        rw [hsz]
        have hdata : s.data ++ ascii "LIST" ++ [0, 0, 0, 0] ++ (list_name ++ body) =
            (s.data ++ ascii "LIST") ++ ([0, 0, 0, 0] ++ (list_name ++ body)) := by
          simp [List.append_assoc]
        have hpos : s.pos + 4 = (s.data ++ ascii "LIST").length := by
          simp [h]
        rw [hdata, hpos,
          ByteStream.write_overwrite (s.data ++ ascii "LIST") [0, 0, 0, 0]
            (list_name ++ body) (uint32_le (list_name.length + body.length))
            (by simp)]
        simp [List.append_assoc, h]
      simp only [Option.map]
      have hdata2 : s.data ++ ascii "LIST" ++ [0, 0, 0, 0] ++ list_name ++ body =
          s.data ++ ascii "LIST" ++ [0, 0, 0, 0] ++ (list_name ++ body) := by
        simp [List.append_assoc]
      rw [hdata2, e4]
      simp [List.append_assoc]
      omega
termination_by sizeOf e

/-- The entry loop from an end-positioned stream appends exactly the
concatenated framed bytes of the entries. -/
theorem write_entries_den (es : RiffEntries) (s : ByteStream)
    (h : s.pos = s.data.length) :
    write_entries s es =
      (entries_bytes es).map (fun b => ⟨s.data ++ b, s.pos + b.length⟩) := by
  cases es with
  | nil =>
    simp [write_entries, entries_bytes]
  | cons e rest =>
    rw [write_entries, write_entry_den e s h]
    cases hbe : entry_bytes e with
    | none => simp [entries_bytes, hbe]
    | some b =>
      simp only [Option.map]
      rw [write_entries_den rest ⟨s.data ++ b, s.pos + b.length⟩ (by simp [h])]
      cases hbr : entries_bytes rest with
      | none => simp [entries_bytes, hbe, hbr]
      | some bs =>
        simp [entries_bytes, hbe, hbr, List.append_assoc]
        omega
termination_by sizeOf es
end

/-- `_write_list` from an end-positioned stream: the backpatched size
field holds the list name length plus the length of the framed children
bytes, and the output is the concatenation of fourcc, size, name and
children. -/
theorem write_list_den (s : ByteStream) (list_name : List Nat)
    (list_structure : RiffEntries) (list_fourcc : List Nat)
    (h : s.pos = s.data.length) :
    write_list s list_name list_structure list_fourcc =
      (entries_bytes list_structure).map (fun body =>
        ⟨s.data ++ list_fourcc ++
            uint32_le (list_name.length + body.length) ++ list_name ++ body,
          s.pos + list_fourcc.length + 4 + list_name.length + body.length⟩) := by
  have e1 : s.write list_fourcc =
      ⟨s.data ++ list_fourcc, s.pos + list_fourcc.length⟩ :=
    ByteStream.write_at_end s _ h
  have e2 : ByteStream.write ⟨s.data ++ list_fourcc, s.pos + list_fourcc.length⟩
      [0, 0, 0, 0] =
      ⟨s.data ++ list_fourcc ++ [0, 0, 0, 0], s.pos + list_fourcc.length + 4⟩ := by
    rw [ByteStream.write_at_end _ _ (by simp [h]; try omega)]
    try simp
  have e3 : ByteStream.write
      ⟨s.data ++ list_fourcc ++ [0, 0, 0, 0], s.pos + list_fourcc.length + 4⟩
      list_name =
      ⟨s.data ++ list_fourcc ++ [0, 0, 0, 0] ++ list_name,
        s.pos + list_fourcc.length + 4 + list_name.length⟩ := by
    rw [ByteStream.write_at_end _ _ (by simp [h]; try omega)]
    try simp
  have hrec := write_entries_den list_structure
    ⟨s.data ++ list_fourcc ++ [0, 0, 0, 0] ++ list_name,
      s.pos + list_fourcc.length + 4 + list_name.length⟩
    (by simp [h]; try omega)
  simp only [write_list, Option.map, e1, ByteStream.tell, e2, e3,
    ByteStream.seek, hrec]
  cases hbe : entries_bytes list_structure with
  | none => rfl
  | some body =>
    have e4 : ByteStream.write
        ⟨s.data ++ list_fourcc ++ [0, 0, 0, 0] ++ (list_name ++ body),
          s.pos + list_fourcc.length⟩
        (uint32_le (s.pos + list_fourcc.length + 4 + list_name.length +
          body.length - (s.pos + list_fourcc.length + 4))) =
        ⟨s.data ++ list_fourcc ++ uint32_le (list_name.length + body.length) ++
            (list_name ++ body),
          s.pos + list_fourcc.length + 4⟩ := by
      have hsz : s.pos + list_fourcc.length + 4 + list_name.length + body.length -
          (s.pos + list_fourcc.length + 4) = list_name.length + body.length := by
        omega
      rw [hsz]
      have hdata : s.data ++ list_fourcc ++ [0, 0, 0, 0] ++ (list_name ++ body) =
          (s.data ++ list_fourcc) ++ ([0, 0, 0, 0] ++ (list_name ++ body)) := by
        simp [List.append_assoc]
      have hpos : s.pos + list_fourcc.length = (s.data ++ list_fourcc).length := by
        simp [h]
      rw [hdata, hpos,
        ByteStream.write_overwrite (s.data ++ list_fourcc) [0, 0, 0, 0]
          (list_name ++ body) (uint32_le (list_name.length + body.length))
          (by simp)]
      simp [List.append_assoc, h]
    simp only [Option.map]
    have hdata2 : s.data ++ list_fourcc ++ [0, 0, 0, 0] ++ list_name ++ body =
        s.data ++ list_fourcc ++ [0, 0, 0, 0] ++ (list_name ++ body) := by
      simp [List.append_assoc]
    rw [hdata2, e4]
    simp [List.append_assoc]
    try omega

/-! ### Claim theorems -/

/-- C1 counterexample: with only the video stream initialized, the written
file still contains a second `strl` list — an empty one (`LIST`, size 4,
`strl`), so `strl` occurs twice in the output — contrary to the claim that
no second `strl` list is present at all. -/
theorem video_only_empty_strl_present :
    countOcc (ascii "LIST" ++ uint32_le 4 ++ ascii "strl")
      ((AviFile.write video_only_example).getD []) = 1 ∧
    countOcc (ascii "strl") ((AviFile.write video_only_example).getD []) = 2 ∧
    (AviFile.write video_only_example).isSome = true := by decide

/-- C1 (amended): a container with only a video stream initialized writes
a file with zero `auds`-tagged bytes, but the audio `strl` list is emitted
as an empty LIST (`LIST`, size 4, `strl`): only payload-less chunks are
skipped, not lists. -/
theorem video_only_audio_framing :
    countOcc (ascii "auds") ((AviFile.write video_only_example).getD []) = 0 ∧
    countOcc (ascii "LIST" ++ uint32_le 4 ++ ascii "strl")
      ((AviFile.write video_only_example).getD []) = 1 ∧
    (AviFile.write video_only_example).isSome = true := by decide

/-- C2 counterexample: the rendered PCM wave-format record of an
initialized audio stream is not 16 bytes long (it is 18). -/
theorem pcm_wave_format_not_16_bytes :
    ¬ (((AviFile.init.initialize_audio_stream 1 11025 8).wave_header.bind
        PcmWaveFormatEx.encode).map List.length = some 16) := by decide

/-- C2 (amended): for every initialized audio stream the rendered PCM
wave-format payload is exactly 18 bytes (the WAVEFORMATEX layout,
including the trailing 2-byte extra-info size field), so the `strf`
chunk's recorded size field equals 18. -/
theorem pcm_wave_format_payload_18 (f : AviFile)
    (channel_count samples_per_second bits_per_sample : Nat) :
    ∃ l, ((f.initialize_audio_stream channel_count samples_per_second
        bits_per_sample).wave_header.bind PcmWaveFormatEx.encode) = some l ∧
      l.length = 18 ∧
      chunk_bytes (ascii "strf") (.header (some l)) =
        some (ascii "strf" ++ uint32_le 18 ++ l) := by
  refine ⟨uint16_le 1 ++ uint16_le channel_count ++ uint32_le samples_per_second ++
      uint32_le (samples_per_second * (channel_count * bits_per_sample)) ++
      uint16_le (channel_count * bits_per_sample) ++ uint16_le bits_per_sample ++
      uint16_le 0, rfl, ?_, ?_⟩
  · simp
  · have hl : (uint16_le 1 ++ uint16_le channel_count ++
        uint32_le samples_per_second ++
        uint32_le (samples_per_second * (channel_count * bits_per_sample)) ++
        uint16_le (channel_count * bits_per_sample) ++
        uint16_le bits_per_sample ++ uint16_le 0).length = 18 := by simp
    simp [chunk_bytes, hl]

/-- C3: in every file the writer produces, a list node's recorded size
field equals the length of its type tag (4 bytes in every use) plus the
fully framed bytes of its children in composed order, and a raw-byte
chunk's recorded size field equals exactly its payload length, with no
alignment padding and excluding the 8-byte tag-plus-size prefix.  Stated
for the inner list writer, the parameterized list writer used at the
root, and the raw-byte chunk writer. -/
theorem riff_recorded_sizes :
    (∀ (s : ByteStream) (list_name : List Nat) (list_structure : RiffEntries)
        (body : List Nat), s.pos = s.data.length →
        entries_bytes list_structure = some body →
        write_entry s (.list list_name list_structure) =
          some ⟨s.data ++ ascii "LIST" ++
              uint32_le (list_name.length + body.length) ++ list_name ++ body,
            s.pos + 4 + 4 + list_name.length + body.length⟩) ∧
    (∀ (s : ByteStream) (list_fourcc list_name : List Nat)
        (list_structure : RiffEntries) (body : List Nat),
        s.pos = s.data.length → entries_bytes list_structure = some body →
        write_list s list_name list_structure list_fourcc =
          some ⟨s.data ++ list_fourcc ++
              uint32_le (list_name.length + body.length) ++ list_name ++ body,
            s.pos + list_fourcc.length + 4 + list_name.length + body.length⟩) ∧
    (∀ (s : ByteStream) (chunk_name d : List Nat), s.pos = s.data.length →
        write_chunk s chunk_name (.bytes d) =
          some ⟨s.data ++ chunk_name ++ uint32_le d.length ++ d,
            s.pos + chunk_name.length + 4 + d.length⟩) := by
  refine ⟨?_, ?_, ?_⟩
  · intro s list_name list_structure body h hbe
    rw [write_entry_den _ _ h]
    simp [entry_bytes, hbe, List.append_assoc]
    try omega
  · intro s list_fourcc list_name list_structure body h hbe
    rw [write_list_den _ _ _ _ h, hbe]
    simp [List.append_assoc]
    try omega
  · intro s chunk_name d h
    rw [write_chunk_den _ _ _ h]
    simp [chunk_bytes, List.append_assoc]
    try omega

/-- C3 witness: the size theorems applied at concrete inputs — an empty
list written at the file root with the `RIFF` fourcc records size 4, and a
2-byte raw chunk records size 2. -/
theorem riff_recorded_sizes_witness :
    write_list ⟨[], 0⟩ (ascii "AVI ") RiffEntries.nil (ascii "RIFF") =
      some ⟨ascii "RIFF" ++ uint32_le 4 ++ ascii "AVI ", 12⟩ ∧
    write_chunk ⟨[], 0⟩ (ascii "00db") (.bytes [7, 7]) =
      some ⟨ascii "00db" ++ uint32_le 2 ++ [7, 7], 10⟩ := by
  constructor
  · have h2 := riff_recorded_sizes.2.1 ⟨[], 0⟩ (ascii "RIFF") (ascii "AVI ")
      RiffEntries.nil [] rfl rfl
    rw [h2]
    decide
  · have h3 := riff_recorded_sizes.2.2 ⟨[], 0⟩ (ascii "00db") [7, 7] rfl
    rw [h3]
    decide

/-- C4 counterexample: at width 0 and height 0 the call completes
normally — the video stream comes out initialized and a subsequent write
even succeeds — contrary to the claim that it fails with an
InvalidDimensions error (no such check exists in the code). -/
theorem initialize_video_stream_zero_accepted :
    (AviFile.init.initialize_video_stream 0 0 10 8 none).video_stream_header.isSome
        = true ∧
    (AviFile.init.initialize_video_stream 0 0 10 8 none).main_header.width
        = some 0 ∧
    (AviFile.init.initialize_video_stream 0 0 10 8 none).write.isSome = true := by
  decide

/-- C4 (amended): `initialize_video_stream` performs no validation of the
dimensions: for every width and height, including non-positive values, it
succeeds, storing the width and the negated height. -/
theorem initialize_video_stream_no_validation (f : AviFile) (w h : Int)
    (fps bpp : Nat) (pal : Option (List Nat)) :
    (f.initialize_video_stream w h fps bpp pal).video_stream_header.isSome
        = true ∧
    (f.initialize_video_stream w h fps bpp pal).main_header.width = some w ∧
    (f.initialize_video_stream w h fps bpp pal).main_header.height = some (-h) ∧
    (f.initialize_video_stream w h fps bpp pal).bitmap_header.isSome = true :=
  ⟨rfl, rfl, rfl, rfl⟩

/-- C5 counterexample: on a fresh file whose audio stream was never
initialized, `add_audio_chunk` does not fail — it returns normally and
appends the `01wb` chunk (the method never consults the audio stream
header). -/
theorem add_audio_chunk_no_failure_uninitialized :
    AviFile.init.audio_stream_header = none ∧
    (AviFile.init.add_audio_chunk [1, 2]).audio_chunks =
      [(ascii "01wb", [1, 2])] := by decide

/-- C5 (amended): before the corresponding initialization,
`add_video_frame` does fail (an attribute error from the missing stream
header, raised after the chunk was already appended), while
`add_audio_chunk` never fails and appends its `01wb` chunk regardless. -/
theorem add_before_initialize_behavior (f : AviFile) (b p : List Nat)
    (hv : f.video_stream_header = none) (ha : f.audio_stream_header = none) :
    (f.add_video_frame b).2.isSome = true ∧
    (f.add_video_frame b).1.video_chunks =
      f.video_chunks ++ [(ascii "00db", b)] ∧
    (f.add_audio_chunk p).audio_chunks =
      f.audio_chunks ++ [(ascii "01wb", p)] := by
  have htagv : ascii "00" ++ AviStreamTwoCC.UncompressedVideo = ascii "00db" := by
    decide
  have htaga : ascii "01" ++ AviStreamTwoCC.Audio = ascii "01wb" := by decide
  unfold AviFile.add_video_frame AviFile.add_audio_chunk
  simp [hv, htagv, htaga]

/-- C5 witness: the amended behavior at the fresh file. -/
theorem add_before_initialize_behavior_witness :
    (AviFile.init.add_video_frame [5]).2.isSome = true ∧
    (AviFile.init.add_video_frame [5]).1.video_chunks =
      [(ascii "00db", [5])] ∧
    (AviFile.init.add_audio_chunk [6]).audio_chunks =
      [(ascii "01wb", [6])] :=
  add_before_initialize_behavior AviFile.init [5] [6] rfl rfl

/-- C6: for a positive frame rate the stored frame interval is the
truncating integer division of 1,000,000 microseconds by the rate
(`ZeroDivisionError` would be raised in the source at rate 0, hence the
hypothesis). -/
theorem micro_seconds_per_frame_div (f : AviFile) (w h : Int) (bpp : Nat)
    (pal : Option (List Nat)) (fps : Nat) (hfps : 0 < fps) :
    (f.initialize_video_stream w h fps bpp pal).main_header.micro_seconds_per_frame
      = some (1000000 / fps) := rfl

/-- C6 witness: at 30 frames per second the stored interval is 33333. -/
theorem micro_seconds_per_frame_div_witness :
    (AviFile.init.initialize_video_stream 64 48 30 8
        none).main_header.micro_seconds_per_frame = some 33333 := by
  have h := micro_seconds_per_frame_div AviFile.init 64 48 8 none 30 (by decide)
  rw [h]

/-- C7: initializing the video stream with height `h` stores `-h` in both
the file header and the bitmap-format header, and both rendered payloads
carry the twos-complement encoding of `-h` at the height field offsets
(36 in the 56-byte `avih` payload, 8 in the bitmap payload), signaling
top-down row order. -/
theorem height_negated_in_headers (f : AviFile) (w h : Int) (fps bpp : Nat)
    (pal : Option (List Nat)) :
    (f.initialize_video_stream w h fps bpp pal).main_header.height = some (-h) ∧
    ((f.initialize_video_stream w h fps bpp pal).bitmap_header.map
      BitmapInfo.height) = some (some (-h)) ∧
    (∃ pre post,
      (f.initialize_video_stream w h fps bpp pal).main_header.encode =
        some (pre ++ (int32_le (-h) ++ post)) ∧ pre.length = 36) ∧
    (∃ pre post,
      ((f.initialize_video_stream w h fps bpp pal).bitmap_header.bind
        BitmapInfo.encode) = some (pre ++ (int32_le (-h) ++ post)) ∧
      pre.length = 8) := by
  refine ⟨rfl, rfl,
    ⟨uint32_le (1000000 / fps) ++ uint32_le f.main_header.max_bytes_per_second ++
        uint32_le f.main_header.padding_in_bytes ++ uint32_le f.main_header.flags ++
        uint32_le f.main_header.total_frames ++
        uint32_le f.main_header.initial_frames ++
        uint32_le f.main_header.stream_count ++
        uint32_le f.main_header.suggested_buffer_size ++ int32_le w,
      uint32_le (f.main_header.reserved.getD 0 0) ++
        uint32_le (f.main_header.reserved.getD 1 0) ++
        uint32_le (f.main_header.reserved.getD 2 0) ++
        uint32_le (f.main_header.reserved.getD 3 0), ?_, by simp⟩,
    ⟨uint32_le BitmapInfo.STRUCTURE_SIZE ++ int32_le w,
      uint16_le 1 ++ uint16_le bpp ++ uint32_le 0 ++ uint32_le 0 ++
        uint32_le 0 ++ uint32_le 0 ++ uint32_le 0 ++ uint32_le 0 ++
        pal.getD [], ?_, by simp⟩⟩
  · simp [AviFile.initialize_video_stream, AviMainHeader.encode,
      List.append_assoc]
  · simp [AviFile.initialize_video_stream, BitmapInfo.encode,
      List.append_assoc]

/-- C8: the rendered PCM wave-format record derives its block alignment as
`channel_count * bits_per_sample` (no division by 8) and its average
bytes-per-second as `samples_per_second * block_alignment`, both computed
at render time from the stored fields; the rendered payload carries the
average at byte offset 8 (4 bytes) directly followed by the alignment at
offset 12 (2 bytes). -/
theorem wave_derived_fields (f : AviFile)
    (channel_count samples_per_second bits_per_sample : Nat) :
    ∃ w, (f.initialize_audio_stream channel_count samples_per_second
        bits_per_sample).wave_header = some w ∧
      w.block_alignment = some (channel_count * bits_per_sample) ∧
      w.average_bytes_per_second_transfer_rate =
        some (samples_per_second * (channel_count * bits_per_sample)) ∧
      ∃ pre post, w.encode =
        some (pre ++
          (uint32_le (samples_per_second * (channel_count * bits_per_sample)) ++
            (uint16_le (channel_count * bits_per_sample) ++ post))) ∧
        pre.length = 8 := by
  refine ⟨_, rfl, rfl, rfl,
    ⟨uint16_le 1 ++ uint16_le channel_count ++ uint32_le samples_per_second,
      uint16_le bits_per_sample ++ uint16_le 0, ?_, by simp⟩⟩
  simp [PcmWaveFormatEx.encode, PcmWaveFormatEx.block_alignment,
    PcmWaveFormatEx.average_bytes_per_second_transfer_rate, List.append_assoc]

/-- C9: with the video stream initialized, each `add_video_frame` call
returns without error, appends exactly one `00db` chunk with the given
bytes, increments the video stream header's frame counter by one, and
leaves the file header (in particular `total_frames`) unchanged;
`total_frames` starts at 0 on a fresh file. -/
theorem add_video_frame_effect (f : AviFile) (bitmap : List Nat)
    (vsh : AviStreamHeader) (hv : f.video_stream_header = some vsh) :
    (f.add_video_frame bitmap).2 = none ∧
    (f.add_video_frame bitmap).1.video_chunks =
      f.video_chunks ++ [(ascii "00db", bitmap)] ∧
    (f.add_video_frame bitmap).1.video_stream_header =
      some { vsh with stream_size := vsh.stream_size + 1 } ∧
    (f.add_video_frame bitmap).1.main_header = f.main_header ∧
    AviFile.init.main_header.total_frames = 0 := by
  have htagv : ascii "00" ++ AviStreamTwoCC.UncompressedVideo = ascii "00db" := by
    decide
  unfold AviFile.add_video_frame
  simp [hv, htagv]
  rfl

/-- C9 witness: the frame effect at a concrete initialized container. -/
theorem add_video_frame_effect_witness :
    ((AviFile.init.initialize_video_stream 2 2 10 8 none).add_video_frame
        [9]).1.video_chunks = [(ascii "00db", [9])] :=
  (add_video_frame_effect (AviFile.init.initialize_video_stream 2 2 10 8 none)
    [9] _ rfl).2.1

/-- Helper: no public operation changes `stream_count`. -/
theorem apply_op_stream_count (f : AviFile) (op : AviOp) :
    (f.apply_op op).main_header.stream_count = f.main_header.stream_count := by
  cases op with
  | initVideo w h fps bpp pal => rfl
  | initAudio cc sps bps => rfl
  | addVideo frame =>
    unfold AviFile.apply_op AviFile.add_video_frame
    cases hv : f.video_stream_header <;> simp [hv]
  | addAudio pcm => rfl

/-- Helper: folding public operations preserves `stream_count`. -/
theorem foldl_stream_count (ops : List AviOp) : ∀ f : AviFile,
    (ops.foldl AviFile.apply_op f).main_header.stream_count =
      f.main_header.stream_count := by
  induction ops with
  | nil => intro f; rfl
  | cons op rest ih =>
    intro f
    rw [List.foldl_cons, ih, apply_op_stream_count]

/-- Helper: whenever the file header renders, bytes 24..27 of the payload
are the little-endian `stream_count`. -/
theorem main_header_encode_stream_count (m : AviMainHeader) (l : List Nat)
    (he : m.encode = some l) :
    ∃ pre post, l = pre ++ (uint32_le m.stream_count ++ post) ∧
      pre.length = 24 := by
  unfold AviMainHeader.encode at he
  cases hm : m.micro_seconds_per_frame with
  | none => rw [hm] at he; exact absurd he (by simp)
  | some micro =>
    cases hw : m.width with
    | none => rw [hm, hw] at he; exact absurd he (by simp)
    | some w =>
      cases hh : m.height with
      | none => rw [hm, hw, hh] at he; exact absurd he (by simp)
      | some ht =>
        rw [hm, hw, hh] at he
        simp only [Option.some.injEq] at he
        refine ⟨uint32_le micro ++ uint32_le m.max_bytes_per_second ++
            uint32_le m.padding_in_bytes ++ uint32_le m.flags ++
            uint32_le m.total_frames ++ uint32_le m.initial_frames,
          uint32_le m.suggested_buffer_size ++ int32_le w ++ int32_le ht ++
            uint32_le (m.reserved.getD 0 0) ++ uint32_le (m.reserved.getD 1 0) ++
            uint32_le (m.reserved.getD 2 0) ++ uint32_le (m.reserved.getD 3 0),
          ?_, by simp⟩
        rw [← he]
        simp [List.append_assoc]

/-- C10: starting from a fresh file, no sequence of public operations ever
changes the file header's `stream_count` from its constant 1 — even when
both streams are initialized — and every rendering of the file header
carries `[1, 0, 0, 0]` at byte offset 24. -/
theorem stream_count_always_one (ops : List AviOp) :
    (AviFile.run ops).main_header.stream_count = 1 ∧
    ∀ l, (AviFile.run ops).main_header.encode = some l →
      ∃ pre post, l = pre ++ (uint32_le 1 ++ post) ∧ pre.length = 24 := by
  have h1 : (AviFile.run ops).main_header.stream_count = 1 := by
    unfold AviFile.run
    rw [foldl_stream_count]
    rfl
  refine ⟨h1, ?_⟩
  intro l he
  have h2 := main_header_encode_stream_count _ _ he
  rwa [h1] at h2

/-- C10 witness: the header rendered after initializing both streams
carries `[1, 0, 0, 0]` at offset 24. -/
theorem stream_count_always_one_witness :
    ∃ pre post,
      [160, 134, 1, 0, 0, 0, 0, 0, 1, 0, 0, 0, 0, 0, 0, 0, 0, 0, 0, 0, 0, 0, 0, 0,
       1, 0, 0, 0, 0, 0, 0, 0, 2, 0, 0, 0, 254, 255, 255, 255,
       0, 0, 0, 0, 0, 0, 0, 0, 0, 0, 0, 0, 0, 0, 0, 0] =
        pre ++ (uint32_le 1 ++ post) ∧ pre.length = 24 :=
  (stream_count_always_one
    [AviOp.initVideo 2 2 10 8 none, AviOp.initAudio 1 11025 8]).2 _ rfl

end Avi

